import Mathlib

/-!
Verification of the python-executor service core against its specification.

The definitions below are a shallow embedding of the Go sources:
  * `internal/executor/docker.go`   — default filling, command building,
    container creation, execution flow;
  * `internal/api/handlers.go`      — job lifecycle updates (sync/async/eval
    handlers, kill path), stderr traceback parsing, `/eval` request shaping;
  * `internal/storage/memory.go` and the Consul variant — cleanup logic;
  * `internal/tar/extract.go`       — path validation and extraction;
  * `internal/imports/*`            — import scanning and requirement merging.

Machine integers are modelled as `Int` (Go `int`/`int64`; no arithmetic in
the verified paths overflows), time instants as `Int` nanoseconds, and
stateful code as explicit state passing.  Go maps used as sets are modelled
by insertion-ordered duplicate-free lists; where the Go code iterates a map
in unspecified order and then sorts, the embedding keeps insertion order
before the sort, which leaves the sorted result identical.
-/

namespace PyExec

/-! ## Data model (`pkg/client/types.go`, `internal/storage/interface.go`) -/

/-- Execution status constants from `pkg/client/types.go`. -/
inductive ExecutionStatus
  | pending
  | running
  | completed
  | failed
  | killed
  deriving DecidableEq, Repr

/-- `client.ExecutionConfig`: resource limits and settings. -/
structure ExecutionConfig where
  timeoutSeconds : Int
  networkDisabled : Bool
  memoryMB : Int
  diskMB : Int
  cpuShares : Int
  deriving DecidableEq, Repr

/-- The Go zero value of `ExecutionConfig` (`&client.ExecutionConfig{}`). -/
def ExecutionConfig.zero : ExecutionConfig :=
  { timeoutSeconds := 0, networkDisabled := false, memoryMB := 0, diskMB := 0, cpuShares := 0 }

/-- `client.Metadata`: one job's inputs.  `config = none` models a nil
`*ExecutionConfig` pointer. -/
structure Metadata where
  entrypoint : String
  dockerImage : String
  requirementsTxt : String
  preCommands : List String
  stdin : String
  config : Option ExecutionConfig
  envVars : List String
  scriptArgs : List String
  evalLastExpr : Bool
  deriving DecidableEq, Repr

/-- `config.DefaultsConfig`: server-wide default execution parameters. -/
structure DefaultsConfig where
  timeout : Int
  memoryMB : Int
  diskMB : Int
  cpuShares : Int
  dockerImage : String
  deriving DecidableEq, Repr

/-- `config.DockerConfig` (the fields the engine reads). -/
structure DockerConfig where
  networkMode : String
  dnsServers : List String
  deriving DecidableEq, Repr

/-- The slice of `config.Config` consumed by the execution engine. -/
structure Config where
  docker : DockerConfig
  defaults : DefaultsConfig
  deriving DecidableEq, Repr

/-! ## Default filling (`applyDefaults`, `internal/executor/docker.go`) -/

/-- `applyDefaults` from `internal/executor/docker.go`: a nil config is
replaced by the zero config, the image default is substituted iff the
supplied image is empty, and each of the four numeric limits is substituted
iff the supplied value is zero.  `NetworkDisabled` is not touched. -/
def applyDefaults (meta : Metadata) (cfg : Config) : Metadata :=
  let c := meta.config.getD ExecutionConfig.zero
  { meta with
    dockerImage := if meta.dockerImage = "" then cfg.defaults.dockerImage else meta.dockerImage
    config := some
      { c with
        timeoutSeconds := if c.timeoutSeconds = 0 then cfg.defaults.timeout else c.timeoutSeconds
        memoryMB := if c.memoryMB = 0 then cfg.defaults.memoryMB else c.memoryMB
        diskMB := if c.diskMB = 0 then cfg.defaults.diskMB else c.diskMB
        cpuShares := if c.cpuShares = 0 then cfg.defaults.cpuShares else c.cpuShares } }

end PyExec

namespace PyExec

/-- The defaulted configuration record of a metadata (after `applyDefaults`
the `config` pointer is always non-nil; this extracts it). -/
def Metadata.configD (meta : Metadata) : ExecutionConfig :=
  meta.config.getD ExecutionConfig.zero

/-! ## String primitives

Go works on bytes; the embedding works on the character lists underlying
Lean strings (the texts involved are ASCII, where the two views agree).
The primitives mirror the `strings` package functions used by the
sources. -/

/-- `s[:n]` (character count). -/
def strTake (s : String) (n : Nat) : String := ⟨s.data.take n⟩

/-- `s[n:]` (character count). -/
def strDrop (s : String) (n : Nat) : String := ⟨s.data.drop n⟩

/-- Character count of `s`. -/
def strLength (s : String) : Nat := s.data.length

/-- `strings.HasPrefix`. -/
def strStartsWith (s p : String) : Bool := p.data.isPrefixOf s.data

/-- `strings.HasSuffix`. -/
def strEndsWith (s p : String) : Bool := p.data.isSuffixOf s.data

/-- `strings.Split` with a one-character separator (the only separators
the sources use: `/`, `\n`, `,`). -/
def splitChar (sep : Char) : List Char → List (List Char)
  | [] => [[]]
  | c :: rest =>
    match splitChar sep rest with
    | [] => [[]]
    | g :: gs => if c = sep then [] :: g :: gs else (c :: g) :: gs

/-- `strings.Split` on strings. -/
def strSplit (s : String) (sep : Char) : List String :=
  (splitChar sep s.data).map (⟨·⟩)

/-- `strings.Join` / `String.intercalate`. -/
def strJoin (sep : String) (l : List String) : String :=
  ⟨List.intercalate sep.data (l.map (·.data))⟩

/-- `strings.ReplaceAll` with a one-character pattern (the sources only
replace `'`). -/
def replaceChar (s : String) (old : Char) (new : String) : String :=
  ⟨s.data.foldr (fun c acc => if c = old then new.data ++ acc else c :: acc) []⟩

/-- Go regexp `\s`. -/
def goWs (c : Char) : Bool :=
  c = ' ' ∨ c = '\t' ∨ c = '\n' ∨ c = '\x0c' ∨ c = '\r'

/-- Whitespace trimmed by Go `strings.TrimSpace` (the ASCII part; the
scanned material contains no Unicode spaces). -/
def goSpace (c : Char) : Bool :=
  c = ' ' ∨ c = '\t' ∨ c = '\n' ∨ c = '\x0b' ∨ c = '\x0c' ∨ c = '\r'

/-- `strings.TrimSpace`. -/
def goTrim (s : String) : String :=
  ⟨((s.data.dropWhile goSpace).reverse.dropWhile goSpace).reverse⟩

/-- ASCII lower-casing (`strings.ToLower` on the ASCII texts involved). -/
def asciiLower (s : String) : String :=
  ⟨s.data.map (fun c =>
    if 'A' ≤ c ∧ c ≤ 'Z' then Char.ofNat (c.toNat + 32) else c)⟩

/-! ## Go path helpers (`path/filepath` on Unix)

`filepath.Clean` is Go's purely lexical path simplification: it drops `.`
components and empty components, resolves `..` against preceding
components (keeping leading `..`s of relative paths, dropping them at the
root of absolute paths), and returns `.` for an empty relative result. -/

/-- Process the `/`-separated components of a path against a component
stack, as `filepath.Clean` does. -/
def cleanComponents (rooted : Bool) : List String → List String → List String
  | acc, [] => acc
  | acc, c :: rest =>
    if c = "" ∨ c = "." then
      cleanComponents rooted acc rest
    else if c = ".." then
      match acc with
      | [] => if rooted then cleanComponents rooted [] rest
              else cleanComponents rooted [".."] rest
      | top :: below =>
        if top = ".." then cleanComponents rooted (".." :: acc) rest
        else cleanComponents rooted below rest
    else
      cleanComponents rooted (c :: acc) rest

/-- Go `filepath.Clean` for Unix paths. -/
def goClean (path : String) : String :=
  if path = "" then "."
  else
    let rooted := strStartsWith path "/"
    let comps := (cleanComponents rooted [] (strSplit path '/')).reverse
    let body := strJoin "/" comps
    if rooted then "/" ++ body
    else if body = "" then "." else body

/-- Go `filepath.Join` of two elements on Unix: empty elements are dropped,
the rest joined with `/` and cleaned. -/
def goJoin (a b : String) : String :=
  if a = "" then (if b = "" then "" else goClean b)
  else if b = "" then goClean a
  else goClean (a ++ "/" ++ b)

/-- Go `filepath.IsAbs` on Unix. -/
def goIsAbs (path : String) : Bool := strStartsWith path "/"

/-! ## Shell quoting (`al.essio.dev/pkg/shellescape`) -/

/-- A character that the shellescape unsafe-character pattern treats as
safe: word characters plus `@ % + = : , . /` and the hyphen. -/
def shellSafeChar (c : Char) : Bool :=
  c.isAlphanum || c = '_' || c = '@' || c = '%' || c = '+' || c = '=' ||
  c = ':' || c = ',' || c = '.' || c = '/' || c = '-'

/-- `shellescape.Quote`: empty strings become `''`; strings containing an
unsafe character are single-quoted with embedded `'` rewritten to
`'\''`; safe strings pass through. -/
def shellQuote (s : String) : String :=
  if s = "" then "''"
  else if s.data.all shellSafeChar then s
  else "'" ++ (replaceChar s '\'' "'\\''") ++ "'"

/-! ## Command building (`buildCommand`, `internal/executor/docker.go`) -/

/-- `buildCommand`: pre-commands verbatim, then (when requirements are
present) an `echo`+`pip install` pair with single quotes escaped, then the
shell-quoted `python` invocation; all joined with ` && `. -/
def buildCommand (meta : Metadata) : String :=
  let parts := meta.preCommands
  let parts := parts ++
    (if meta.requirementsTxt ≠ "" then
      let reqFile := goJoin "/work" "requirements.txt"
      ["echo '" ++ (replaceChar meta.requirementsTxt '\'' "'\\''") ++ "' > " ++ reqFile,
       "pip install --no-cache-dir -r " ++ reqFile]
    else [])
  let scriptPath := goJoin "/work" meta.entrypoint
  let pythonCmd := meta.scriptArgs.foldl
    (fun cmd arg => cmd ++ " " ++ shellQuote arg)
    ("python " ++ shellQuote scriptPath)
  strJoin " && " (parts ++ [pythonCmd])

/-! ## Container creation (`createContainer`, `internal/executor/docker.go`)

The Docker API calls are opaque; the embedding captures the container
specification the engine passes to `ContainerCreate` (container config plus
host config). -/

/-- The container specification built by `createContainer`. -/
structure ContainerSpec where
  image : String
  cmd : List String
  workingDir : String
  attachStdout : Bool
  attachStderr : Bool
  env : List String
  openStdin : Bool
  stdinOnce : Bool
  networkMode : String
  memory : Int
  cpuShares : Int
  dns : List String
  tmpfs : List (String × String)
  deriving DecidableEq, Repr

/-- `createContainer`: network mode is `none` iff the (defaulted) config
disables networking, memory and CPU shares come from the config, and the
host config mounts a single tmpfs at `/tmp` of fixed size `100m`.  The
function is called by `Execute` only after `applyDefaults`, so the config
pointer is non-nil (`configD`). -/
def createContainerSpec (cfg : Config) (meta : Metadata) : ContainerSpec :=
  { image := meta.dockerImage
    cmd := ["sh", "-c", buildCommand meta]
    workingDir := "/work"
    attachStdout := true
    attachStderr := true
    env := meta.envVars
    openStdin := meta.stdin ≠ ""
    stdinOnce := meta.stdin ≠ ""
    networkMode := if meta.configD.networkDisabled then "none" else cfg.docker.networkMode
    memory := meta.configD.memoryMB * 1024 * 1024
    cpuShares := meta.configD.cpuShares
    dns := cfg.docker.dnsServers
    tmpfs := [("/tmp", "size=100m")] }

/-- The container specification produced for a job: `Execute` first applies
defaults, then creates the container (`docker.go`, `Execute` →
`createContainer`). -/
def containerSpecFor (cfg : Config) (meta : Metadata) : ContainerSpec :=
  createContainerSpec cfg (applyDefaults meta cfg)

/-! ## Job records and lifecycle updates (`internal/storage/interface.go`,
`internal/api/handlers.go`)

Time instants are `Int` (Unix nanoseconds).  Each store-affecting step of
the handlers is a pure function on the record; the handlers then persist
the new record with `storage.Update`. -/

/-- `storage.Execution`: the stored job record. -/
structure Execution where
  id : String
  status : ExecutionStatus
  metadata : Metadata
  stdout : String
  stderr : String
  exitCode : Int
  error : String
  errorType : String
  errorLine : Int
  startedAt : Option Int
  finishedAt : Option Int
  durationMs : Int
  containerID : String
  createdAt : Int
  deriving DecidableEq, Repr

/-- `executor.ExecutionOutput`: the engine's return value on success. -/
structure ExecutionOutput where
  stdout : String
  stderr : String
  exitCode : Int
  durationMs : Int
  deriving DecidableEq, Repr

/-- The record built by the handlers before `storage.Create`
(`&storage.Execution{ID, Status: StatusPending, Metadata, CreatedAt}`;
all other fields take their Go zero values). -/
def newExecution (id : String) (meta : Metadata) (now : Int) : Execution :=
  { id := id
    status := .pending
    metadata := meta
    stdout := ""
    stderr := ""
    exitCode := 0
    error := ""
    errorType := ""
    errorLine := 0
    startedAt := none
    finishedAt := none
    durationMs := 0
    containerID := ""
    createdAt := now }

/-- The running transition performed by the sync handler, the `/eval`
handler and the async worker before dispatching the engine
(`exec.Status = StatusRunning; exec.StartedAt = &now`). -/
def markRunning (e : Execution) (now : Int) : Execution :=
  { e with status := .running, startedAt := some now }

/-- The terminal update of the async worker `executeAsync` after the
engine returns (`handlers.go`): `FinishedAt` is set, then the status is
unconditionally overwritten with `failed` (engine error) or `completed`
(engine output), in the latter case also copying stdout/stderr/exit
code/duration.  The record's current status is not consulted. -/
def asyncFinishUpdate (e : Execution) (result : Except String ExecutionOutput)
    (finishedAt : Int) : Execution :=
  match result with
  | .error msg =>
      { e with finishedAt := some finishedAt, status := .failed, error := msg }
  | .ok out =>
      { e with
        finishedAt := some finishedAt
        status := .completed
        stdout := out.stdout
        stderr := out.stderr
        exitCode := out.exitCode
        durationMs := out.durationMs }

/-- Outcome of the `DELETE /executions/{id}` handler `KillExecution` once
the record has been fetched: the HTTP response body status string, the
record written back (if any), and whether the container runtime's kill
was invoked. -/
structure KillOutcome where
  responseStatus : String
  updated : Option Execution
  calledRuntimeKill : Bool
  deriving DecidableEq, Repr

/-- `KillExecution` after a successful `storage.Get`: a non-running record
is returned unchanged; otherwise the runtime kill is attempted only when
`ContainerID` is non-empty, after which the status is set to `killed` and
persisted.  (The embedding models the runtime kill as succeeding.) -/
def killExecutionStep (e : Execution) : KillOutcome :=
  if e.status ≠ .running then
    { responseStatus := statusString e.status, updated := none, calledRuntimeKill := false }
  else
    { responseStatus := "killed"
      updated := some { e with status := .killed }
      calledRuntimeKill := e.containerID ≠ "" }
where
  /-- `string(exec.Status)` -/
  statusString : ExecutionStatus → String
    | .pending => "pending"
    | .running => "running"
    | .completed => "completed"
    | .failed => "failed"
    | .killed => "killed"

/-- The record states a job record passes through under the handler code:
created pending, marked running, finished by the worker, or killed.  These
are exactly the store writes in `handlers.go`. -/
inductive Reachable : Execution → Prop
  | create (id : String) (meta : Metadata) (now : Int) :
      Reachable (newExecution id meta now)
  | run (e : Execution) (now : Int) :
      Reachable e → Reachable (markRunning e now)
  | finish (e : Execution) (result : Except String ExecutionOutput) (t : Int) :
      Reachable e → Reachable (asyncFinishUpdate e result t)
  | kill (e e' : Execution) :
      Reachable e → (killExecutionStep e).updated = some e' → Reachable e'

/-! ## Store cleanup (`internal/storage/memory.go`, Consul variant)

The in-memory store is a mapping keyed by id; the embedding uses an
association list.  `time.Now()` is passed explicitly; `t.Before(cutoff)`
is `<` on instants. -/

/-- Terminal statuses tested by both `Cleanup` implementations
(`StatusCompleted || StatusFailed || StatusKilled`). -/
def isTerminal (s : ExecutionStatus) : Bool :=
  s = .completed ∨ s = .failed ∨ s = .killed

/-- The per-record deletion condition of `Cleanup`: terminal status and
`CreatedAt.Before(now − olderThan)`. -/
def cleanupEligible (now olderThan : Int) (e : Execution) : Bool :=
  isTerminal e.status && e.createdAt < now - olderThan

/-- `MemoryStorage.Cleanup`: deletes from the map every record whose status
is completed/failed/killed and whose creation time precedes the cutoff. -/
def memoryCleanup (m : List (String × Execution)) (now olderThan : Int) :
    List (String × Execution) :=
  m.filter (fun kv => !cleanupEligible now olderThan kv.2)

/-- `ConsulStorage.Cleanup`: lists all (well-formed) records and deletes
each one satisfying the same condition, continuing past per-entry delete
failures.  The embedding models deletes as succeeding and returns the
records passed to `Delete`. -/
def consulCleanupDeleted (records : List Execution) (now olderThan : Int) :
    List Execution :=
  records.filter (cleanupEligible now olderThan)

/-! ## Tar service (`internal/tar/extract.go`)

Filesystem writes are modelled by the list of target paths created
(directories from `MkdirAll`, files from `OpenFile`+`Copy`); intermediate
parent directories created by `MkdirAll` are subsumed by their target
path.  Extraction is a left-to-right walk over the archive entries which
stops at the first error, returning the writes performed so far. -/

/-- Tar entry type flags relevant to extraction. -/
inductive TarType
  | dir
  | reg
  | other
  deriving DecidableEq, Repr

/-- One archive entry (header name, type and payload). -/
structure TarEntry where
  name : String
  typeflag : TarType
  content : String
  deriving DecidableEq, Repr

/-- Whether `sub` occurs as a substring (`strings.Contains`). -/
def containsSubstr (s sub : String) : Bool :=
  (List.range (strLength s + 1)).any (fun i => (strTake (strDrop s i) (strLength sub)) = sub)

/-- `validatePath`: reject names containing `..` anywhere, absolute names,
and names starting with `/`; `none` means the path is accepted. -/
def validatePath (path : String) : Option String :=
  if containsSubstr path ".." then
    some ("invalid path: " ++ path ++ " (contains ..)")
  else if goIsAbs path then
    some ("invalid path: " ++ path ++ " (absolute path not allowed)")
  else if strStartsWith path "/" then
    some ("invalid path: " ++ path ++ " (starts with /)")
  else
    none

/-- The belt-and-braces re-check of `ExtractToDir`: after joining, the
cleaned target must still lie under the cleaned destination. -/
def insideDest (destDir targetPath : String) : Bool :=
  strStartsWith (goClean targetPath) (goClean destDir ++ "/")

/-- The body of `ExtractToDir`'s entry loop: validate, join, re-check,
then create a directory or write a regular file (recording the path), or
silently skip other entry types.  Returns the writes performed and the
error that stopped the loop, if any. -/
def extractLoop (destDir : String) :
    List TarEntry → List String → List String × Option String
  | [], written => (written, none)
  | e :: rest, written =>
    match validatePath e.name with
    | some err => (written, some err)
    | none =>
      let targetPath := goJoin destDir e.name
      if !insideDest destDir targetPath then
        (written, some ("invalid path: " ++ e.name ++ " (path traversal detected)"))
      else
        match e.typeflag with
        | .dir => extractLoop destDir rest (written ++ [targetPath])
        | .reg => extractLoop destDir rest (written ++ [targetPath])
        | .other => extractLoop destDir rest written

/-- `ExtractToDir` on a well-formed archive stream: iterate the entries in
order, performing the per-entry validation and writes of the loop body. -/
def extractToDir (entries : List TarEntry) (destDir : String) :
    List String × Option String :=
  extractLoop destDir entries []

/-- An entry name rejected by `validatePath` (independent of the
destination directory). -/
def unsafeName (name : String) : Bool :=
  (validatePath name).isSome

/-- An entry at which the extraction loop stops: its name fails
`validatePath`, or the joined path escapes the destination. -/
def entryRejected (destDir : String) (e : TarEntry) : Bool :=
  unsafeName e.name || !insideDest destDir (goJoin destDir e.name)

/-- The segment-based path rule: `..` occurring as a whole `/`-separated
component of the name.  (`validatePath` is strictly stronger than this.) -/
def hasDotDotSegment (name : String) : Bool :=
  (strSplit name '/').any (· = "..")

/-! ## `/eval` request shaping (`ExecuteEval`, `internal/api/handlers.go`)

The JSON-decoded request is shaped into files, image, entrypoint and
metadata before any store operation; each early `c.JSON(4xx, …)` return is
an error of `EvalError`.  The execution record is created (`storage.Create`)
only after shaping succeeds. -/

/-- `client.CodeFile`. -/
structure CodeFile where
  name : String
  content : String
  deriving DecidableEq, Repr

/-- `client.SimpleExecRequest` (the fields the handler reads). -/
structure SimpleExecRequest where
  code : String
  files : List CodeFile
  entrypoint : String
  stdin : String
  config : Option ExecutionConfig
  pythonVersion : String
  evalLastExpr : Bool
  deriving DecidableEq, Repr

/-- `pythonVersionImages`: the fixed version→image table. -/
def pythonVersionImages : List (String × String) :=
  [("3.10", "python:3.10-slim"), ("3.11", "python:3.11-slim"),
   ("3.12", "python:3.12-slim"), ("3.13", "python:3.13-slim")]

/-- `maxCodeSize`: 100 KiB. -/
def maxCodeSize : Nat := 100 * 1024

/-- The early-return rejections of `ExecuteEval`. -/
inductive EvalError
  | badRequestNeither
  | badRequestVersion (v : String)
  | payloadTooLarge (totalSize : Nat)
  deriving DecidableEq, Repr

/-- The shaped result: the files packed into the tar, and the metadata
handed to the execution request. -/
structure EvalPlan where
  files : List CodeFile
  metadata : Metadata
  deriving DecidableEq, Repr

/-- The validation and shaping prefix of `ExecuteEval`, in source order:
^code/files presence check, python-version resolution, files-list
construction (files take precedence over code), total-size cap, entrypoint
selection, metadata construction. -/
def evalShape (req : SimpleExecRequest) : Except EvalError EvalPlan :=
  if req.code = "" ∧ req.files = [] then
    .error .badRequestNeither
  else
    match dockerImage? req with
    | none => .error (.badRequestVersion req.pythonVersion)
    | some dockerImage =>
      let files := if req.files ≠ [] then req.files
                   else [{ name := "main.py", content := req.code }]
      let totalSize := (files.map (fun f => strLength f.content)).sum
      if totalSize > maxCodeSize then
        .error (.payloadTooLarge totalSize)
      else
        let entrypoint :=
          if req.entrypoint ≠ "" then req.entrypoint
          else if req.files ≠ [] then (req.files.head?.map (·.name)).getD ""
          else "main.py"
        .ok
          { files := files
            metadata :=
              { entrypoint := entrypoint
                dockerImage := dockerImage
                requirementsTxt := ""
                preCommands := []
                stdin := req.stdin
                config := req.config
                envVars := []
                scriptArgs := []
                evalLastExpr := false } }
where
  /-- Python-version resolution: empty version keeps the empty image
  (server default applies later); a known version maps through the table;
  an unknown version is rejected. -/
  dockerImage? (req : SimpleExecRequest) : Option String :=
    if req.pythonVersion = "" then some ""
    else pythonVersionImages.lookup req.pythonVersion

/-- The `/eval` handler up to and including record creation: a record is
built (and persisted as pending) only when shaping succeeded. -/
def evalHandlerRecord (req : SimpleExecRequest) (id : String) (now : Int) :
    Except EvalError (EvalPlan × Execution) :=
  match evalShape req with
  | .error e => .error e
  | .ok plan => .ok (plan, newExecution id plan.metadata now)

/-! ## Traceback parsing (`parseErrorFromStderr`, `internal/api/handlers.go`)

The two Go regexes are emulated directly.
`pythonErrorTypePattern` is anchored and submatch-greedy: on a line it
captures the longest all-alphabetic prefix that starts with an uppercase
letter, ends in `Error` and is followed by `:`.
`pythonErrorLinePattern` is unanchored: scanning start positions left to
right, a literal `File "` must match, then the greedy `.*` picks the
longest stretch followed by `", line ` and at least one digit; the capture
is the maximal digit run there. -/

/-- ASCII alphabetic, as Go's `[a-zA-Z]`. -/
def isAsciiAlpha (c : Char) : Bool :=
  ('a' ≤ c ∧ c ≤ 'z') ∨ ('A' ≤ c ∧ c ≤ 'Z')

/-- ASCII uppercase, as Go's `[A-Z]`. -/
def isAsciiUpper (c : Char) : Bool := 'A' ≤ c ∧ c ≤ 'Z'

/-- A string decomposable as `[A-Z][a-zA-Z]*Error`: non-empty, all
alphabetic, uppercase first letter, `Error` suffix (which forces length
at least 6). -/
def errorIdentCandidate (p : String) : Bool :=
  strLength p ≥ 6 && p.data.all isAsciiAlpha &&
    (p.data.head?.map isAsciiUpper).getD false && strEndsWith p "Error"

/-- `pythonErrorTypePattern.FindStringSubmatch`: the submatch of
`^([A-Z][a-zA-Z]*Error):`, i.e. the longest candidate prefix followed by a
colon. -/
def errorTypeMatch (line : String) : Option String :=
  (List.range (strLength line + 1)).reverse.findSome? fun k =>
    let p := strTake line k
    if errorIdentCandidate p ∧ strStartsWith (strDrop line k) ":" then some p else none

/-- The maximal leading digit run, i.e. the greedy `(\d+)` capture. -/
def digitRun (s : String) : String := ⟨s.data.takeWhile Char.isDigit⟩

/-- `pythonErrorLinePattern.FindStringSubmatch`: the digit capture of the
leftmost match of `File ".*", line (\d+)` in the line. -/
def errorLineMatch (line : String) : Option String :=
  (List.range (strLength line + 1)).findSome? fun i =>
    if strStartsWith (strDrop line i) "File \"" then
      let rest := strDrop line (i + 6)
      (List.range (strLength rest + 1)).reverse.findSome? fun t =>
        if strStartsWith (strDrop rest t) "\", line " ∧ digitRun (strDrop rest (t + 8)) ≠ "" then
          some (digitRun (strDrop rest (t + 8)))
        else none
    else none

/-- `strconv.Atoi` on the digit capture: parses the decimal value, failing
(range error) beyond the 64-bit signed maximum. -/
def goAtoi (s : String) : Option Int :=
  if s = "" ∨ ¬ s.data.all Char.isDigit then none
  else
    let n := s.data.foldl (fun acc c => acc * 10 + (c.toNat - '0'.toNat)) 0
    if n ≤ 9223372036854775807 then some (n : Int) else none

/-- The backward error-type scan of `parseErrorFromStderr` (the Go loop
runs `i` from the last line down, trimming, skipping blank lines and
breaking at the first pattern match).  The argument is the line list
already reversed. -/
def errorTypeScan : List String → String
  | [] => ""
  | l :: rest =>
    let line := goTrim l
    if line = "" then errorTypeScan rest
    else
      match errorTypeMatch line with
      | some t => t
      | none => errorTypeScan rest

/-- The forward error-line scan of `parseErrorFromStderr`: first line with
a pattern match whose capture parses; a failed `Atoi` does not break the
loop. -/
def errorLineScan : List String → Int
  | [] => 0
  | l :: rest =>
    match errorLineMatch l with
    | some digits =>
      match goAtoi digits with
      | some n => n
      | none => errorLineScan rest
    | none => errorLineScan rest

/-- `parseErrorFromStderr`: split on newlines, scan backward for the error
type and forward for the error line. -/
def parseErrorFromStderr (stderr : String) : String × Int :=
  let lines := strSplit stderr '\n'
  (errorTypeScan lines.reverse, errorLineScan lines)

/-! ## Import scanning (`internal/imports/parser.go`)

The parser first erases string literals and comments, then runs the two
anchored patterns over the cleaned text.  Both erasure and matching are
emulated at the character level with Go regexp semantics: leftmost scan,
alternatives in order, `.*?` shortest-first, `\s+`/`[^\n#]+`/`(\S+)`
greedy with backtracking.  Go's `\s` is `[\t\n\f\r ]`. -/

/-- First index at which `pat` occurs as a sublist (Go `strings.Index`). -/
def findSublist (pat : List Char) : List Char → Option Nat
  | [] => if pat = [] then some 0 else none
  | c :: rest =>
    if pat.isPrefixOf (c :: rest) then some 0
    else (findSublist pat rest).map (· + 1)

/-- Go `strings.Index` on strings. -/
def goIndex (s pat : String) : Option Nat := findSublist pat.data s.data

/-- Length of the string-literal match (if any) starting at the head of
`cs`, trying the four alternatives of the Go pattern
(triple-single, triple-double, one-line single, one-line double) in
order; the triple-quoted forms close at the earliest closing delimiter. -/
def matchStringLit (cs : List Char) : Option Nat :=
  let tryTriple (q : Char) : Option Nat :=
    if cs.take 3 = [q, q, q] then
      (findSublist [q, q, q] (cs.drop 3)).map (fun j => 3 + j + 3)
    else none
  let trySingle (q : Char) : Option Nat :=
    match cs with
    | c :: rest =>
      if c = q then
        let run := rest.takeWhile (fun d => d ≠ q ∧ d ≠ '\n')
        if (rest.drop run.length).head? = some q then some (1 + run.length + 1)
        else none
      else none
    | [] => none
  (tryTriple '\'').orElse fun _ =>
  (tryTriple '"').orElse fun _ =>
  (trySingle '\'').orElse fun _ =>
  trySingle '"'

/-- The replace-all scan of `stringPattern.ReplaceAllString(code, "")`:
left-to-right, dropping each leftmost match.  The fuel argument (chars
remaining) makes the recursion structural; every match consumes at least
two characters. -/
def stripStringsAux : Nat → List Char → List Char
  | 0, _ => []
  | _, [] => []
  | fuel + 1, c :: rest =>
    match matchStringLit (c :: rest) with
    | some n => stripStringsAux fuel ((c :: rest).drop n)
    | none => c :: stripStringsAux fuel rest

/-- Erase string literals (`stringPattern.ReplaceAllString(code, "")`). -/
def stripStrings (code : String) : String :=
  ⟨stripStringsAux code.data.length code.data⟩

/-- Erase comments (`commentPattern.ReplaceAllString(code, "")`): each
line is truncated at its first `#`. -/
def stripComments (code : String) : String :=
  strJoin "\n" ((strSplit code '\n').map (fun l => ⟨l.data.takeWhile (· ≠ '#')⟩))

/-- Match `[ \t]*import\s+([^\n#]+)` at a line-start position: leading
spaces/tabs, the literal `import`, a greedy whitespace run that leaves a
non-empty capture of non-newline non-`#` characters.  Returns the length
consumed and the capture. -/
def matchImportAt (cs : List Char) : Option (Nat × String) :=
  let a := (cs.takeWhile (fun c => c = ' ' ∨ c = '\t')).length
  if ("import".data).isPrefixOf (cs.drop a) then
    let r := a + 6
    let w := ((cs.drop r).takeWhile goWs).length
    ((List.range w).reverse.findSome? fun j =>
      let w' := j + 1
      let cap := (cs.drop (r + w')).takeWhile (fun c => c ≠ '\n' ∧ c ≠ '#')
      if cap ≠ [] then some (r + w' + cap.length, (⟨cap⟩ : String)) else none)
  else none

/-- Match `[ \t]*from\s+(\S+)\s+import\s+` at a line-start position.  All
quantifiers are forced maximal here (shrinking any of them puts a
mismatching character class next), so the match is deterministic. -/
def matchFromAt (cs : List Char) : Option (Nat × String) :=
  let a := (cs.takeWhile (fun c => c = ' ' ∨ c = '\t')).length
  if ("from".data).isPrefixOf (cs.drop a) then
    let r := a + 4
    let w1 := ((cs.drop r).takeWhile goWs).length
    let cap := (cs.drop (r + w1)).takeWhile (fun c => !goWs c)
    let w2 := ((cs.drop (r + w1 + cap.length)).takeWhile goWs).length
    if w1 ≥ 1 ∧ cap ≠ [] ∧ w2 ≥ 1 ∧
        ("import".data).isPrefixOf (cs.drop (r + w1 + cap.length + w2)) then
      let w3 := ((cs.drop (r + w1 + cap.length + w2 + 6)).takeWhile goWs).length
      if w3 ≥ 1 then
        some (r + w1 + cap.length + w2 + 6 + w3, (⟨cap⟩ : String))
      else none
    else none
  else none

/-- `FindAllStringSubmatch` for a `(?m)^`-anchored pattern: try the
matcher at every line-start position, continue after each match
(non-overlapping), and collect the captures in order.  The boolean tracks
whether the current position is a line start; fuel is the remaining
length. -/
def scanMatchesAux (matcher : List Char → Option (Nat × String)) :
    Nat → Bool → List Char → List String
  | 0, _, _ => []
  | _, _, [] => []
  | fuel + 1, atLineStart, c :: rest =>
    if atLineStart then
      match matcher (c :: rest) with
      | some (n, cap) =>
        let consumed := (c :: rest).take n
        cap :: scanMatchesAux matcher fuel (consumed.getLast? = some '\n') ((c :: rest).drop n)
      | none => scanMatchesAux matcher fuel (c = '\n') rest
    else
      scanMatchesAux matcher fuel (c = '\n') rest

/-- Run a line-anchored matcher over a whole string. -/
def scanMatches (matcher : List Char → Option (Nat × String)) (s : String) : List String :=
  scanMatchesAux matcher (s.data.length + 1) true s.data

/-- `isValidModuleName`: letter or underscore first, then letters, digits,
underscores and dots. -/
def isValidModuleName (name : String) : Bool :=
  match name.data with
  | [] => false
  | c :: rest =>
    (isAsciiAlpha c ∨ c = '_') ∧
      rest.all (fun d => isAsciiAlpha d ∨ d.isDigit ∨ d = '_' ∨ d = '.')

/-- `extractTopLevel`: the dotted name up to the first `.` when that dot
is not the first character. -/
def extractTopLevel (module : String) : String :=
  match goIndex module "." with
  | some idx => if idx > 0 then strTake module idx else module
  | none => module

/-- Insertion into the Go set-map, keeping first-insertion order. -/
def addUnique (l : List String) (x : String) : List String :=
  if x ∈ l then l else l ++ [x]

/-- Processing of one `import …` capture: split on commas, trim, cut an
` as ` alias (only at a positive index), trim again, validate, and take
the top-level component. -/
def processImportGroup (grp : String) : List String :=
  (strSplit grp ',').foldl
    (fun acc part =>
      let part := goTrim part
      let part :=
        match goIndex part " as " with
        | some idx => if idx > 0 then strTake part idx else part
        | none => part
      let part := goTrim part
      if part ≠ "" ∧ isValidModuleName part then acc ++ [extractTopLevel part]
      else acc)
    []

/-- `ParseImports`: clean the code, run both patterns, and collect the
top-level module names into a set.  The embedding returns the members in
first-insertion order (the Go map's iteration order is unspecified; every
consumer either sorts or treats the result as a set). -/
def ParseImports (code : String) : List String :=
  let clean := stripComments (stripStrings code)
  let importCaps := scanMatches matchImportAt clean
  let fromCaps := scanMatches matchFromAt clean
  let modules := importCaps.foldl
    (fun acc grp => (processImportGroup grp).foldl addUnique acc) []
  fromCaps.foldl
    (fun acc cap =>
      let module := goTrim cap
      if module ≠ "" ∧ isValidModuleName module then addUnique acc (extractTopLevel module)
      else acc)
    modules

/-! ## Stdlib set and package mapping (`internal/imports/stdlib.go`,
`internal/imports/mapping.go`) -/

/-- `stdlibModules`: the embedded Python 3.12 standard-library names. -/
def stdlibModules : List String :=
  ["string", "re", "difflib", "textwrap", "unicodedata", "stringprep",
   "readline", "rlcompleter",
   "struct", "codecs",
   "datetime", "zoneinfo", "calendar", "collections", "heapq", "bisect",
   "array", "weakref", "types", "copy", "pprint", "reprlib", "enum", "graphlib",
   "numbers", "math", "cmath", "decimal", "fractions", "random", "statistics",
   "itertools", "functools", "operator",
   "pathlib", "fileinput", "stat", "filecmp", "tempfile", "glob", "fnmatch",
   "linecache", "shutil",
   "pickle", "copyreg", "shelve", "marshal", "dbm", "sqlite3",
   "zlib", "gzip", "bz2", "lzma", "zipfile", "tarfile",
   "csv", "configparser", "tomllib", "netrc", "plistlib",
   "hashlib", "hmac", "secrets",
   "os", "io", "time", "argparse", "getopt", "logging", "getpass", "curses",
   "platform", "errno", "ctypes",
   "threading", "multiprocessing", "concurrent", "subprocess", "sched",
   "queue", "contextvars",
   "asyncio", "socket", "ssl", "select", "selectors", "signal", "mmap",
   "email", "json", "mailbox", "mimetypes", "base64", "binascii", "quopri",
   "html", "xml",
   "webbrowser", "wsgiref", "urllib", "http", "ftplib", "poplib", "imaplib",
   "smtplib", "uuid", "socketserver", "xmlrpc", "ipaddress",
   "wave", "colorsys",
   "gettext", "locale",
   "turtle", "cmd", "shlex",
   "tkinter",
   "typing", "pydoc", "doctest", "unittest", "test",
   "bdb", "faulthandler", "pdb", "timeit", "trace", "tracemalloc",
   "ensurepip", "venv", "zipapp",
   "sys", "sysconfig", "builtins", "__main__", "warnings", "dataclasses",
   "contextlib", "abc", "atexit", "traceback", "__future__", "gc",
   "inspect", "site",
   "code", "codeop",
   "zipimport", "pkgutil", "modulefinder", "runpy", "importlib",
   "ast", "symtable", "token", "keyword", "tokenize", "tabnanny", "pyclbr",
   "py_compile", "compileall", "dis", "pickletools",
   "msvcrt", "winreg", "winsound",
   "posix", "pwd", "grp", "termios", "tty", "pty", "fcntl", "resource", "syslog",
   "optparse",
   "_thread",
   "collections.abc", "os.path", "urllib.request", "urllib.parse",
   "urllib.error", "http.client", "http.server", "http.cookies",
   "html.parser", "xml.etree", "xml.dom", "xml.sax", "email.mime",
   "logging.handlers", "logging.config", "unittest.mock", "asyncio.tasks",
   "asyncio.streams", "multiprocessing.pool", "concurrent.futures",
   "typing_extensions"]

/-- `IsStdlib`. -/
def IsStdlib (module : String) : Bool := stdlibModules.contains module

/-- `moduleToPackage`: import-name → pip-package-name table. -/
def moduleToPackage : List (String × String) :=
  [("PIL", "Pillow"), ("cv2", "opencv-python"), ("skimage", "scikit-image"),
   ("sklearn", "scikit-learn"), ("tensorflow", "tensorflow"),
   ("tf", "tensorflow"), ("torch", "torch"), ("keras", "keras"),
   ("xgboost", "xgboost"), ("lightgbm", "lightgbm"), ("catboost", "catboost"),
   ("numpy", "numpy"), ("np", "numpy"), ("pandas", "pandas"),
   ("pd", "pandas"), ("scipy", "scipy"), ("sympy", "sympy"),
   ("statsmodels", "statsmodels"), ("pyarrow", "pyarrow"), ("polars", "polars"),
   ("bs4", "beautifulsoup4"), ("requests", "requests"), ("httpx", "httpx"),
   ("aiohttp", "aiohttp"), ("urllib3", "urllib3"), ("selenium", "selenium"),
   ("scrapy", "scrapy"), ("lxml", "lxml"),
   ("yaml", "PyYAML"), ("dotenv", "python-dotenv"), ("toml", "toml"),
   ("environ", "environ-config"), ("decouple", "python-decouple"),
   ("psycopg2", "psycopg2-binary"), ("pymysql", "PyMySQL"),
   ("pymongo", "pymongo"), ("redis", "redis"), ("sqlalchemy", "SQLAlchemy"),
   ("peewee", "peewee"), ("motor", "motor"), ("asyncpg", "asyncpg"),
   ("flask", "Flask"), ("fastapi", "fastapi"), ("django", "Django"),
   ("starlette", "starlette"), ("sanic", "sanic"), ("bottle", "bottle"),
   ("tornado", "tornado"), ("uvicorn", "uvicorn"), ("gunicorn", "gunicorn"),
   ("pydantic", "pydantic"),
   ("pytest", "pytest"), ("mock", "mock"), ("faker", "Faker"),
   ("hypothesis", "hypothesis"), ("responses", "responses"),
   ("httpretty", "httpretty"), ("vcrpy", "vcrpy"),
   ("click", "click"), ("typer", "typer"), ("rich", "rich"),
   ("colorama", "colorama"), ("tqdm", "tqdm"), ("tabulate", "tabulate"),
   ("fire", "fire"),
   ("trio", "trio"), ("anyio", "anyio"), ("gevent", "gevent"),
   ("eventlet", "eventlet"), ("celery", "celery"),
   ("msgpack", "msgpack"), ("orjson", "orjson"), ("ujson", "ujson"),
   ("simplejson", "simplejson"), ("protobuf", "protobuf"),
   ("avro", "avro-python3"),
   ("cryptography", "cryptography"), ("nacl", "PyNaCl"), ("jwt", "PyJWT"),
   ("passlib", "passlib"), ("bcrypt", "bcrypt"), ("paramiko", "paramiko"),
   ("boto3", "boto3"), ("botocore", "botocore"), ("google", "google-cloud"),
   ("azure", "azure"),
   ("matplotlib", "matplotlib"), ("plt", "matplotlib"), ("seaborn", "seaborn"),
   ("sns", "seaborn"), ("plotly", "plotly"), ("bokeh", "bokeh"),
   ("altair", "altair"),
   ("nltk", "nltk"), ("spacy", "spacy"), ("transformers", "transformers"),
   ("gensim", "gensim"), ("textblob", "textblob"),
   ("dateutil", "python-dateutil"), ("arrow", "arrow"),
   ("pendulum", "pendulum"), ("pytz", "pytz"),
   ("attr", "attrs"), ("attrs", "attrs"), ("more_itertools", "more-itertools"),
   ("toolz", "toolz"), ("cytoolz", "cytoolz"), ("boltons", "boltons"),
   ("sh", "sh"), ("plumbum", "plumbum"), ("invoke", "invoke"),
   ("fabric", "fabric"),
   ("loguru", "loguru"), ("structlog", "structlog"), ("sentry_sdk", "sentry-sdk"),
   ("marshmallow", "marshmallow"), ("cerberus", "Cerberus"),
   ("voluptuous", "voluptuous"), ("jsonschema", "jsonschema"),
   ("graphene", "graphene"), ("strawberry", "strawberry-graphql"),
   ("grpc", "grpcio"),
   ("IPython", "ipython"), ("ipywidgets", "ipywidgets"), ("nbformat", "nbformat"),
   ("Pillow", "Pillow"), ("networkx", "networkx"), ("igraph", "python-igraph"),
   ("shapely", "shapely"), ("fiona", "Fiona"), ("rasterio", "rasterio"),
   ("geopandas", "geopandas"), ("folium", "folium"), ("pygments", "Pygments"),
   ("jinja2", "Jinja2"), ("mako", "Mako"), ("chardet", "chardet"),
   ("ftfy", "ftfy"), ("unidecode", "Unidecode"), ("emoji", "emoji")]

/-- `GetPackageName`: table lookup, identity when absent. -/
def GetPackageName (module : String) : String :=
  match moduleToPackage.lookup module with
  | some pkg => pkg
  | none => module

/-! ## Requirement detection and merging (`internal/imports`, detector and
merge) -/

/-- Byte/codepoint lexicographic order on character lists (Go's `<` on
strings; on UTF-8 text byte order and codepoint order agree). -/
def lexLe : List Char → List Char → Bool
  | [], _ => true
  | _ :: _, [] => false
  | a :: as, b :: bs => if a = b then lexLe as bs else decide (a < b)

/-- String order used by `sort.Strings`. -/
def strLe (a b : String) : Bool := lexLe a.data b.data

/-- `strLe` as a relation (for the sorting lemmas). -/
def strLeP (a b : String) : Prop := strLe a b = true

instance : DecidableRel strLeP := fun a b => instDecidableEqBool (strLe a b) true

/-- The duplicate-free package list accumulated by `DetectRequirements`
(the Go `packages` set, in insertion order). -/
def detectPackages (code : String) : List String :=
  (ParseImports code).foldl
    (fun acc m => if IsStdlib m then acc else addUnique acc (GetPackageName m)) []

/-- The sorted package list (`sort.Strings(result)`): the unique sorted
permutation of the detected set (insertion sort; `sort.Strings` agrees on
duplicate-free input). -/
def detectList (code : String) : List String :=
  (detectPackages code).insertionSort strLeP

/-- `DetectRequirements`: empty when nothing third-party was detected,
otherwise the sorted unique package names joined by newlines. -/
def DetectRequirements (code : String) : String :=
  if detectPackages code = [] then ""
  else strJoin "\n" (detectList code)

/-- `extractPackageName`: the requirement line up to the first
version/extras/marker character, trimmed. -/
def extractPackageName (line : String) : String :=
  match line.data.findIdx? (fun c => c ∈ ['=', '>', '<', '!', '[', ';']) with
  | some i => goTrim (strTake line i)
  | none => goTrim line

/-- `MergeRequirements`: user-provided text first and verbatim; detected
lines whose lowercased bare name is not among the user's bare names are
appended in order. -/
def MergeRequirements (detected userProvided : String) : String :=
  if userProvided = "" then detected
  else if detected = "" then userProvided
  else
    let userPackages := (strSplit userProvided '\n').foldl
      (fun acc line =>
        let line := goTrim line
        if line = "" ∨ strStartsWith line "#" then acc
        else addUnique acc (asciiLower (extractPackageName line)))
      []
    (strSplit detected '\n').foldl
      (fun acc line =>
        let line := goTrim line
        if line = "" then acc
        else if asciiLower (extractPackageName line) ∈ userPackages then acc
        else acc ++ "\n" ++ line)
      userProvided

/-! ## Test fixtures

Concrete server configuration and request values (the environment defaults
of `internal/config/config.go`) used to instantiate the theorems below. -/

/-- The server configuration with all environment defaults. -/
def serverCfg : Config :=
  { docker := { networkMode := "host", dnsServers := ["8.8.8.8", "8.8.4.4"] }
    defaults := { timeout := 300, memoryMB := 1024, diskMB := 2048,
                  cpuShares := 1024, dockerImage := "python:3.12-slim" } }

/-- A minimal metadata: entrypoint only, nil config. -/
def metaBare : Metadata :=
  { entrypoint := "main.py", dockerImage := "", requirementsTxt := ""
    preCommands := [], stdin := "", config := none, envVars := []
    scriptArgs := [], evalLastExpr := false }

/-- A metadata whose config disables networking and leaves the numeric
limits zero. -/
def metaNetOff : Metadata :=
  { metaBare with
    config := some { timeoutSeconds := 0, networkDisabled := true,
                     memoryMB := 0, diskMB := 0, cpuShares := 0 } }

end PyExec

namespace PyExec

/-! ## Claim theorems -/

/-- **C6** — `applyDefaults` substitutes the server default for each of
`timeout_seconds`, `memory_mb`, `disk_mb` and `cpu_shares` iff the
supplied value is zero, and for the image iff the supplied value is
empty; it never rewrites `network_disabled`; and with positive server
defaults applying it twice equals applying it once. -/
theorem applyDefaults_fill_iff_zero_and_idempotent (meta : Metadata) (cfg : Config)
    (hT : 0 < cfg.defaults.timeout) (hM : 0 < cfg.defaults.memoryMB)
    (hD : 0 < cfg.defaults.diskMB) (hC : 0 < cfg.defaults.cpuShares) :
    ((applyDefaults meta cfg).configD.timeoutSeconds =
      if meta.configD.timeoutSeconds = 0 then cfg.defaults.timeout
      else meta.configD.timeoutSeconds) ∧
    ((applyDefaults meta cfg).configD.memoryMB =
      if meta.configD.memoryMB = 0 then cfg.defaults.memoryMB
      else meta.configD.memoryMB) ∧
    ((applyDefaults meta cfg).configD.diskMB =
      if meta.configD.diskMB = 0 then cfg.defaults.diskMB
      else meta.configD.diskMB) ∧
    ((applyDefaults meta cfg).configD.cpuShares =
      if meta.configD.cpuShares = 0 then cfg.defaults.cpuShares
      else meta.configD.cpuShares) ∧
    ((applyDefaults meta cfg).dockerImage =
      if meta.dockerImage = "" then cfg.defaults.dockerImage
      else meta.dockerImage) ∧
    ((applyDefaults meta cfg).configD.networkDisabled = meta.configD.networkDisabled) ∧
    applyDefaults (applyDefaults meta cfg) cfg = applyDefaults meta cfg := by
  refine ⟨rfl, rfl, rfl, rfl, rfl, rfl, ?_⟩
  simp only [applyDefaults, Metadata.configD, Option.getD_some]
  split_ifs <;> simp_all

/-- Witness for C6 at the bare metadata and the default server
configuration. -/
theorem applyDefaults_fill_iff_zero_and_idempotent_witness :
    0 < serverCfg.defaults.timeout ∧
    applyDefaults (applyDefaults metaBare serverCfg) serverCfg =
      applyDefaults metaBare serverCfg :=
  ⟨by decide,
   (applyDefaults_fill_iff_zero_and_idempotent metaBare serverCfg
      (by decide) (by decide) (by decide) (by decide)).2.2.2.2.2.2⟩

/-- **C5** — evaluation of the container specification the engine actually
builds for a job with default-filled `disk_mb = 2048`: the host config
mounts a tmpfs only at `/tmp` with the fixed size `100m`; no tmpfs is
mounted at `/work` and the disk limit is not used, although memory, CPU
shares and network mode do come from the job config as claimed. -/
theorem createContainer_mounts_no_work_tmpfs :
    (containerSpecFor serverCfg metaNetOff).tmpfs = [("/tmp", "size=100m")] ∧
    ((containerSpecFor serverCfg metaNetOff).tmpfs.lookup "/work") = none ∧
    (applyDefaults metaNetOff serverCfg).configD.diskMB = 2048 ∧
    (containerSpecFor serverCfg metaNetOff).networkMode = "none" ∧
    (containerSpecFor serverCfg metaBare).networkMode = "host" ∧
    (containerSpecFor serverCfg metaNetOff).memory = 1024 * 1024 * 1024 ∧
    (containerSpecFor serverCfg metaNetOff).cpuShares = 1024 := by
  refine ⟨rfl, rfl, rfl, rfl, rfl, by decide, rfl⟩

/-- The record produced by the DELETE kill path applied to a running job
(create → markRunning → kill). -/
def killedAfterRunning : Execution :=
  ((killExecutionStep (markRunning (newExecution "exe_k" metaBare 0) 1)).updated).getD
    (newExecution "exe_k" metaBare 0)

/-- **C1** — evaluation of the async worker's terminal update on a record
the kill path has already set to `killed`: the update overwrites the
status with `completed` (engine success) or `failed` (engine error)
instead of preserving `killed`. -/
theorem async_worker_overwrites_killed :
    killedAfterRunning.status = .killed ∧
    (asyncFinishUpdate killedAfterRunning
        (.ok { stdout := "done\n", stderr := "", exitCode := 0, durationMs := 42 }) 2).status
      = .completed ∧
    (asyncFinishUpdate killedAfterRunning (.error "engine failure") 2).status = .failed := by
  refine ⟨rfl, rfl, rfl⟩

/-- **C2** — no store write in the handlers ever sets `ContainerID`: every
record reachable through the handler code has an empty container handle;
in particular a running record's handle is empty (contradicting the
claimed invariant) and the kill path never reaches the container
runtime. -/
theorem container_handle_never_set :
    (∀ e, Reachable e → e.containerID = "") ∧
    (markRunning (newExecution "exe_r" metaBare 0) 1).status = .running ∧
    (markRunning (newExecution "exe_r" metaBare 0) 1).containerID = "" ∧
    (killExecutionStep (markRunning (newExecution "exe_r" metaBare 0) 1)).calledRuntimeKill
      = false := by
  refine ⟨?_, rfl, rfl, by decide⟩
  intro e h
  induction h with
  | create id meta now => rfl
  | run e now _ ih => simpa [markRunning] using ih
  | finish e result t _ ih => cases result <;> simpa [asyncFinishUpdate] using ih
  | kill e e' _ hupd ih =>
    by_cases hs : e.status ≠ ExecutionStatus.running
    · simp [killExecutionStep, hs] at hupd
    · simp only [killExecutionStep, hs, if_false, ite_false, Option.some.injEq] at hupd
      simp [← hupd, ih]

/-- Witness for C2: the invariant applied to the concrete record of a job
that was created and marked running. -/
theorem container_handle_never_set_witness :
    (markRunning (newExecution "exe_w" metaBare 0) 1).containerID = "" :=
  container_handle_never_set.1 (markRunning (newExecution "exe_w" metaBare 0) 1)
    (Reachable.run (newExecution "exe_w" metaBare 0) 1
      (Reachable.create "exe_w" metaBare 0))

/-- **C7** — both cleanup implementations delete a record iff its status
is terminal (completed/failed/killed) and its creation instant precedes
`now − olderThan`; pending and running records always survive. -/
theorem cleanup_deletes_iff_terminal_and_old
    (m : List (String × Execution)) (records : List Execution)
    (now olderThan : Int) (id : String) (e : Execution) :
    ((id, e) ∈ memoryCleanup m now olderThan ↔
      (id, e) ∈ m ∧
        ¬((e.status = .completed ∨ e.status = .failed ∨ e.status = .killed) ∧
          e.createdAt < now - olderThan)) ∧
    (e ∈ consulCleanupDeleted records now olderThan ↔
      e ∈ records ∧
        (e.status = .completed ∨ e.status = .failed ∨ e.status = .killed) ∧
        e.createdAt < now - olderThan) ∧
    ((e.status = .pending ∨ e.status = .running) → (id, e) ∈ m →
      (id, e) ∈ memoryCleanup m now olderThan) := by
  have hel : ∀ x : Execution, cleanupEligible now olderThan x = true ↔
      ((x.status = .completed ∨ x.status = .failed ∨ x.status = .killed) ∧
        x.createdAt < now - olderThan) := by
    intro x
    simp [cleanupEligible, isTerminal]
  have hel' : ∀ x : Execution, (!cleanupEligible now olderThan x) = true ↔
      ¬((x.status = .completed ∨ x.status = .failed ∨ x.status = .killed) ∧
        x.createdAt < now - olderThan) := by
    intro x
    rw [← hel x]
    cases cleanupEligible now olderThan x <;> simp
  refine ⟨?_, ?_, ?_⟩
  · rw [memoryCleanup, List.mem_filter, hel']
  · rw [consulCleanupDeleted, List.mem_filter, hel]
  · intro hs hm
    rw [memoryCleanup, List.mem_filter, hel']
    refine ⟨hm, ?_⟩
    rintro ⟨h1, _⟩
    rcases hs with h | h <;> rcases h1 with h2 | h2 | h2 <;> simp [h] at h2

/-- An old killed record (created at 0, well before the cutoff). -/
def oldKilled : Execution :=
  { newExecution "exe_old" metaBare 0 with status := .killed }

/-- Witness for C7: a terminal old record is deleted by the Consul pass
and removed from the memory map, while an equally old running record
survives. -/
theorem cleanup_deletes_iff_terminal_and_old_witness :
    oldKilled ∈ consulCleanupDeleted [oldKilled] 100 10 ∧
    ("exe_r", markRunning (newExecution "exe_r" metaBare 0) 1) ∈
      memoryCleanup [("exe_r", markRunning (newExecution "exe_r" metaBare 0) 1)] 100 10 :=
  ⟨(cleanup_deletes_iff_terminal_and_old [] [oldKilled] 100 10 "exe_old" oldKilled).2.1.mpr
      ⟨by decide, by decide, by decide⟩,
   (cleanup_deletes_iff_terminal_and_old
      [("exe_r", markRunning (newExecution "exe_r" metaBare 0) 1)] [] 100 10 "exe_r"
      (markRunning (newExecution "exe_r" metaBare 0) 1)).2.2
      (by decide) (by decide)⟩

/-- Helper for C3: when some entry of the archive is rejected, the
extraction loop returns an error and exactly the writes of the accepted
prefix before the first rejected entry, for any accumulator. -/
theorem extractLoop_stops_at_first_rejected (destDir : String) :
    ∀ (entries : List TarEntry) (written : List String),
      (∃ x ∈ entries, entryRejected destDir x = true) →
      (extractLoop destDir entries written).2.isSome = true ∧
      (extractLoop destDir entries written).1 =
        (extractLoop destDir (entries.take (entries.findIdx (entryRejected destDir)))
          written).1 := by
  intro entries
  induction entries with
  | nil => intro written h; simp at h
  | cons e rest ih =>
    intro written h
    by_cases hr : entryRejected destDir e = true
    · have hfind : (e :: rest).findIdx (entryRejected destDir) = 0 := by
        simp [List.findIdx_cons, hr]
      rw [hfind]
      rcases hval : validatePath e.name with _ | err
      · have hu : unsafeName e.name = false := by simp [unsafeName, hval]
        have hin : insideDest destDir (goJoin destDir e.name) = false := by
          rcases hh : insideDest destDir (goJoin destDir e.name)
          · rfl
          · exfalso
            rw [entryRejected, hu, hh] at hr
            simp at hr
        simp [extractLoop, hval, hin]
      · simp [extractLoop, hval]
    · have hu : unsafeName e.name = false := by
        rcases hh : unsafeName e.name
        · rfl
        · exact absurd (by rw [entryRejected, hh]; rfl) hr
      have hval : validatePath e.name = none := by
        rcases hh : validatePath e.name with _ | err
        · rfl
        · rw [unsafeName, hh] at hu
          simp at hu
      have hin : insideDest destDir (goJoin destDir e.name) = true := by
        rcases hh : insideDest destDir (goJoin destDir e.name)
        · exact absurd (by rw [entryRejected, hu, hh]; rfl) hr
        · rfl
      have hrest : ∃ x ∈ rest, entryRejected destDir x = true := by
        rcases h with ⟨x, hx, hxr⟩
        rcases List.mem_cons.mp hx with rfl | hx'
        · exact absurd hxr hr
        · exact ⟨x, hx', hxr⟩
      have hrf : entryRejected destDir e = false := by
        rcases hh : entryRejected destDir e
        · rfl
        · exact absurd hh hr
      have hfind : (e :: rest).findIdx (entryRejected destDir) =
          rest.findIdx (entryRejected destDir) + 1 := by
        simp [List.findIdx_cons, hrf]
      rw [hfind, List.take_succ_cons]
      cases htf : e.typeflag with
      | dir =>
        simpa [extractLoop, hval, hin, htf] using
          ih (written ++ [goJoin destDir e.name]) hrest
      | reg =>
        simpa [extractLoop, hval, hin, htf] using
          ih (written ++ [goJoin destDir e.name]) hrest
      | other =>
        simpa [extractLoop, hval, hin, htf] using ih written hrest

/-- **C3** (amended) — an archive containing an unsafe entry is rejected
with an error, and nothing is written for the rejected entry or anything
after it; the entries accepted before the first rejected entry have
already been written (per-entry validation interleaves with I/O). -/
theorem extract_unsafe_entry_error_and_prefix_writes (destDir : String)
    (entries : List TarEntry) (h : ∃ x ∈ entries, unsafeName x.name = true) :
    (extractToDir entries destDir).2.isSome = true ∧
    (extractToDir entries destDir).1 =
      (extractToDir (entries.take (entries.findIdx (entryRejected destDir))) destDir).1 := by
  have h' : ∃ x ∈ entries, entryRejected destDir x = true := by
    rcases h with ⟨x, hx, hxr⟩
    exact ⟨x, hx, by rw [entryRejected, hxr]; rfl⟩
  exact extractLoop_stops_at_first_rejected destDir entries [] h'

/-- Counterexample to C3 as stated: an archive whose first entry is safe
and second entry unsafe is rejected, but the first entry's file has
already been created — the extraction did not "write nothing". -/
theorem extract_unsafe_archive_wrote_earlier_entry :
    (extractToDir [⟨"a.py", .reg, "print(1)"⟩, ⟨"../escape.py", .reg, ""⟩] "/work").2.isSome
        = true ∧
    (extractToDir [⟨"a.py", .reg, "print(1)"⟩, ⟨"../escape.py", .reg, ""⟩] "/work").1
        = ["/work/a.py"] :=
  ⟨by decide, by decide⟩

/-- Witness for C3 (amended): a one-entry unsafe archive is rejected and
(the prefix being empty) nothing is written. -/
theorem extract_unsafe_entry_error_and_prefix_writes_witness :
    (extractToDir [⟨"../escape.py", TarType.reg, ""⟩] "/work").2.isSome = true :=
  (extract_unsafe_entry_error_and_prefix_writes "/work"
    [⟨"../escape.py", TarType.reg, ""⟩]
    ⟨⟨"../escape.py", TarType.reg, ""⟩, by decide, by decide⟩).1

/-- Helper for C4: `ExecuteEval` answers 400 "either code or files must be
provided" exactly when both `code` is empty and `files` is absent. -/
theorem evalShape_error_neither_iff (req : SimpleExecRequest) :
    evalShape req = .error .badRequestNeither ↔ (req.code = "" ∧ req.files = []) := by
  by_cases h0 : req.code = "" ∧ req.files = []
  · simp [evalShape, h0]
  · simp only [evalShape, if_neg h0]
    constructor
    · intro hc
      rcases hv : evalShape.dockerImage? req with _ | img <;> rw [hv] at hc
      · simp at hc
      · split at hc
        · simp at hc
        · split at hc <;> split at hc <;> simp at hc
    · intro hc
      exact absurd hc h0

/-- Helper for C4: the files packed by a successful shaping — the `files`
list when supplied (it takes precedence over `code`), otherwise a single
`main.py` holding `code`. -/
theorem evalShape_ok_files (req : SimpleExecRequest) (plan : EvalPlan)
    (h : evalShape req = .ok plan) :
    plan.files = (if req.files ≠ [] then req.files
                  else [{ name := "main.py", content := req.code }]) := by
  by_cases h0 : req.code = "" ∧ req.files = []
  · simp [evalShape, h0] at h
  · simp only [evalShape, if_neg h0] at h
    rcases hv : evalShape.dockerImage? req with _ | img <;> rw [hv] at h
    · simp at h
    · split at h
      · simp at h
      · split at h <;> split at h <;>
          first
          | (simp only [Except.ok.injEq] at h
             subst h
             simp_all)
          | simp at h

/-- **C4** (amended) — the `/eval` handler rejects a request with
`BadRequest` for the presence rule iff *neither* `code` nor `files` is
present, and only then; when both are present the request is not rejected:
`files` takes precedence and `code` is ignored.  The execution record is
created only after shaping succeeds (so a presence rejection happens
before any record exists), and it is created in `pending`. -/
theorem eval_presence_rule_rejects_iff_neither (req : SimpleExecRequest)
    (id : String) (now : Int) :
    (evalHandlerRecord req id now = .error .badRequestNeither ↔
      (req.code = "" ∧ req.files = [])) ∧
    (∀ plan rec, evalHandlerRecord req id now = .ok (plan, rec) →
      plan.files = (if req.files ≠ [] then req.files
                    else [{ name := "main.py", content := req.code }]) ∧
      rec = newExecution id plan.metadata now ∧ rec.status = .pending) := by
  constructor
  · rw [← evalShape_error_neither_iff req]
    rcases hs : evalShape req with err | plan <;> simp [evalHandlerRecord, hs]
  · intro plan rec hok
    rcases hs : evalShape req with err | plan' <;> rw [evalHandlerRecord, hs] at hok
    · simp at hok
    · simp only [Except.ok.injEq, Prod.mk.injEq] at hok
      obtain ⟨hp, hr⟩ := hok
      refine ⟨?_, ?_, ?_⟩
      · rw [← hp]
        exact evalShape_ok_files req plan' hs
      · rw [← hr, ← hp]
      · rw [← hr]
        rfl

/-- A request supplying both `code` and `files`. -/
def evalReqBoth : SimpleExecRequest :=
  { code := "print(1)", files := [{ name := "a.py", content := "print(2)" }]
    entrypoint := "", stdin := "", config := none, pythonVersion := ""
    evalLastExpr := false }

/-- Counterexample to C4 as stated: a request in which `code` and `files`
are both present and non-empty is *not* rejected — the handler shapes it
successfully (using `files`) and creates an execution record. -/
theorem eval_both_code_and_files_not_rejected :
    evalReqBoth.code ≠ "" ∧ evalReqBoth.files ≠ [] ∧
    (evalHandlerRecord evalReqBoth "exe_e" 0).isOk = true :=
  ⟨by decide, by decide, by decide⟩

/-- A request supplying neither `code` nor `files`. -/
def evalReqNeither : SimpleExecRequest :=
  { code := "", files := [], entrypoint := "", stdin := "", config := none
    pythonVersion := "", evalLastExpr := false }

/-- The plan shaped from `evalReqBoth`. -/
def evalPlanBoth : EvalPlan :=
  { files := [{ name := "a.py", content := "print(2)" }]
    metadata :=
      { entrypoint := "a.py", dockerImage := "", requirementsTxt := ""
        preCommands := [], stdin := "", config := none, envVars := []
        scriptArgs := [], evalLastExpr := false } }

/-- Witness for C4 (amended): the neither-request is rejected before any
record exists, and on the both-request the created plan uses `files`. -/
theorem eval_presence_rule_rejects_iff_neither_witness :
    evalHandlerRecord evalReqNeither "exe_n" 0 = .error .badRequestNeither ∧
    evalPlanBoth.files = evalReqBoth.files :=
  ⟨(eval_presence_rule_rejects_iff_neither evalReqNeither "exe_n" 0).1.mpr ⟨rfl, rfl⟩,
   by
    have h := ((eval_presence_rule_rejects_iff_neither evalReqBoth "exe_e" 0).2
      evalPlanBoth (newExecution "exe_e" evalPlanBoth.metadata 0) rfl).1
    rw [h]
    decide⟩

/-- Totality of the byte-lexicographic order. -/
theorem lexLe_total : ∀ as bs : List Char, lexLe as bs = true ∨ lexLe bs as = true := by
  intro as
  induction as with
  | nil => intro bs; left; rfl
  | cons a as ih =>
    intro bs
    cases bs with
    | nil => right; rfl
    | cons b bs =>
      by_cases hab : a = b
      · subst hab
        rcases ih bs with h | h
        · left
          simpa [lexLe] using h
        · right
          simpa [lexLe] using h
      · rcases lt_or_gt_of_ne hab with h | h
        · left
          simp [lexLe, hab, h]
        · right
          simp [lexLe, Ne.symm hab, h]

/-- Transitivity of the byte-lexicographic order. -/
theorem lexLe_trans : ∀ as bs cs : List Char,
    lexLe as bs = true → lexLe bs cs = true → lexLe as cs = true := by
  intro as
  induction as with
  | nil => intro bs cs _ _; rfl
  | cons a as ih =>
    intro bs cs h1 h2
    cases bs with
    | nil => simp [lexLe] at h1
    | cons b bs =>
      cases cs with
      | nil => simp [lexLe] at h2
      | cons c cs =>
        by_cases hab : a = b <;> by_cases hbc : b = c
        · subst hab; subst hbc
          simp only [lexLe, if_pos rfl] at h1 h2 ⊢
          exact ih bs cs h1 h2
        · subst hab
          simp only [lexLe, if_neg hbc] at h2
          have hlt : a < c := by simpa using h2
          simp [lexLe, ne_of_lt hlt, hlt]
        · subst hbc
          simp only [lexLe, if_neg hab] at h1
          have hlt : a < b := by simpa using h1
          simp [lexLe, ne_of_lt hlt, hlt]
        · simp only [lexLe, if_neg hab] at h1
          simp only [lexLe, if_neg hbc] at h2
          have hlt : a < c := lt_trans (by simpa using h1) (by simpa using h2)
          simp [lexLe, ne_of_lt hlt, hlt]

instance : IsTotal String strLeP :=
  ⟨fun a b => lexLe_total a.data b.data⟩

instance : IsTrans String strLeP :=
  ⟨fun a b c => lexLe_trans a.data b.data c.data⟩

/-- `addUnique` preserves duplicate-freedom. -/
theorem addUnique_nodup {l : List String} {x : String} (h : l.Nodup) :
    (addUnique l x).Nodup := by
  unfold addUnique
  split
  · exact h
  · rename_i hx
    simp [List.nodup_append, h, hx]

/-- Membership after `addUnique`. -/
theorem addUnique_mem {l : List String} {x y : String} :
    y ∈ addUnique l x ↔ y ∈ l ∨ y = x := by
  unfold addUnique
  split
  · rename_i hx
    constructor
    · exact Or.inl
    · rintro (h | rfl)
      · exact h
      · exact hx
  · simp

/-- The accumulator step of `DetectRequirements`. -/
def detectStep (acc : List String) (m : String) : List String :=
  if IsStdlib m then acc else addUnique acc (GetPackageName m)

/-- The `DetectRequirements` fold preserves duplicate-freedom. -/
theorem detectFold_nodup (modules : List String) :
    ∀ acc : List String, acc.Nodup → (modules.foldl detectStep acc).Nodup := by
  induction modules with
  | nil => intro acc h; exact h
  | cons m ms ih =>
    intro acc h
    simp only [List.foldl_cons]
    by_cases hm : IsStdlib m = true
    · rw [detectStep, if_pos hm]
      exact ih acc h
    · rw [detectStep, if_neg hm]
      exact ih _ (addUnique_nodup h)

/-- Every member of the `DetectRequirements` fold is an accumulator
member or the mapped name of a non-stdlib module of the list. -/
theorem detectFold_mem (modules : List String) :
    ∀ (acc : List String) (y : String),
      y ∈ modules.foldl detectStep acc →
      y ∈ acc ∨ ∃ m ∈ modules, IsStdlib m = false ∧ y = GetPackageName m := by
  induction modules with
  | nil => intro acc y h; exact Or.inl h
  | cons m ms ih =>
    intro acc y h
    simp only [List.foldl_cons] at h
    by_cases hm : IsStdlib m = true
    · rw [detectStep, if_pos hm] at h
      rcases ih acc y h with h' | ⟨m', hm', hs, he⟩
      · exact Or.inl h'
      · exact Or.inr ⟨m', List.mem_cons_of_mem _ hm', hs, he⟩
    · have hm' : IsStdlib m = false := by
        rcases hh : IsStdlib m
        · rfl
        · exact absurd hh hm
      rw [detectStep, if_neg hm] at h
      rcases ih _ y h with h' | ⟨m', hmem, hs, he⟩
      · rcases addUnique_mem.mp h' with h'' | rfl
        · exact Or.inl h''
        · exact Or.inr ⟨m, List.mem_cons_self m ms, hm', rfl⟩
      · exact Or.inr ⟨m', List.mem_cons_of_mem _ hmem, hs, he⟩

/-- If every module is stdlib, the fold leaves the accumulator alone. -/
theorem detectFold_all_stdlib (modules : List String)
    (hall : ∀ m ∈ modules, IsStdlib m = true) :
    ∀ acc : List String, modules.foldl detectStep acc = acc := by
  induction modules with
  | nil => intro acc; rfl
  | cons m ms ih =>
    intro acc
    simp only [List.foldl_cons]
    rw [detectStep, if_pos (hall m (List.mem_cons_self m ms))]
    exact ih (fun x hx => hall x (List.mem_cons_of_mem _ hx)) acc

/-- A successful association-list lookup witnesses membership. -/
theorem lookup_mem_str : ∀ (l : List (String × String)) (a b : String),
    l.lookup a = some b → (a, b) ∈ l := by
  intro l
  induction l with
  | nil => intro a b h; simp [List.lookup] at h
  | cons kv rest ih =>
    intro a b h
    obtain ⟨k, v⟩ := kv
    rw [List.lookup] at h
    split at h
    · rename_i heq
      obtain rfl : v = b := by cases h; rfl
      obtain rfl : a = k := by simpa using heq
      exact List.mem_cons_self _ _
    · exact List.mem_cons_of_mem _ (ih a b h)

/-- No value of the import-name → package-name table is a stdlib name. -/
theorem mapping_values_not_stdlib :
    moduleToPackage.all (fun kv => !(IsStdlib kv.2)) = true := by decide

/-- Mapping a non-stdlib module name yields a non-stdlib package name. -/
theorem getPackageName_not_stdlib (m : String) (hm : IsStdlib m = false) :
    IsStdlib (GetPackageName m) = false := by
  unfold GetPackageName
  rcases hl : moduleToPackage.lookup m with _ | pkg
  · exact hm
  · have hmem := lookup_mem_str moduleToPackage m pkg hl
    have hall := mapping_values_not_stdlib
    rw [List.all_eq_true] at hall
    simpa using hall (m, pkg) hmem

/-- **C8** — `DetectRequirements` output: it joins `detectList` (the
sorted unique mapped package names) by newlines, the list is sorted in
lexicographic order and duplicate-free, none of its members is a stdlib
name, the result is empty when no third-party import was detected, and
merging with empty user text is the identity. -/
theorem detect_requirements_postconditions (code : String) :
    DetectRequirements code =
      (if detectPackages code = [] then "" else strJoin "\n" (detectList code)) ∧
    List.Sorted strLeP (detectList code) ∧
    (detectList code).Nodup ∧
    (∀ p ∈ detectList code, IsStdlib p = false) ∧
    ((∀ m ∈ ParseImports code, IsStdlib m = true) → DetectRequirements code = "") ∧
    MergeRequirements (DetectRequirements code) "" = DetectRequirements code := by
  have hpack : detectPackages code = (ParseImports code).foldl detectStep [] := by
    rw [detectPackages]
    rfl
  refine ⟨rfl, ?_, ?_, ?_, ?_, ?_⟩
  · exact List.sorted_insertionSort strLeP (detectPackages code)
  · have hnodup : (detectPackages code).Nodup := by
      rw [hpack]
      exact detectFold_nodup (ParseImports code) [] List.nodup_nil
    exact ((List.perm_insertionSort strLeP (detectPackages code)).nodup_iff).mpr hnodup
  · intro p hp
    have hp' : p ∈ detectPackages code :=
      (List.perm_insertionSort strLeP (detectPackages code)).mem_iff.mp hp
    rw [hpack] at hp'
    rcases detectFold_mem (ParseImports code) [] p hp' with h | ⟨m, _, hs, rfl⟩
    · simp at h
    · exact getPackageName_not_stdlib m hs
  · intro hall
    have hempty : detectPackages code = [] := by
      rw [hpack]
      exact detectFold_all_stdlib (ParseImports code) hall []
    rw [DetectRequirements, if_pos hempty]
  · rw [MergeRequirements]
    simp

/-- Witness for C8: stdlib-only source detects nothing; merging a
detection result with empty user text is the identity. -/
theorem detect_requirements_postconditions_witness :
    DetectRequirements "import os" = "" ∧
    MergeRequirements (DetectRequirements "import numpy") "" =
      DetectRequirements "import numpy" :=
  ⟨(detect_requirements_postconditions "import os").2.2.2.2.1 (by decide),
   (detect_requirements_postconditions "import numpy").2.2.2.2.2⟩

/-- The claim-side backward scan: the pattern capture of the first line
matching the error-type pattern (on its trimmed text) when scanning the
lines from the last upward; empty when none matches. -/
def specErrorType (lines : List String) : String :=
  ((lines.reverse.map goTrim).findSome? errorTypeMatch).getD ""

/-- The claim-side forward scan: the first integer captured by the
file/line pattern when scanning the lines from the first downward; zero
when none matches (or the capture overflows). -/
def specErrorLine (lines : List String) : Int :=
  (lines.findSome? (fun l => (errorLineMatch l).bind goAtoi)).getD 0

/-- The backward loop of the parser equals the claim-side backward scan. -/
theorem errorTypeScan_eq (ls : List String) :
    errorTypeScan ls = ((ls.map goTrim).findSome? errorTypeMatch).getD "" := by
  induction ls with
  | nil => rfl
  | cons l rest ih =>
    simp only [errorTypeScan, List.map_cons, List.findSome?_cons]
    by_cases hl : goTrim l = ""
    · rw [if_pos hl, hl]
      have : errorTypeMatch "" = none := rfl
      rw [this]
      exact ih
    · rw [if_neg hl]
      rcases hm : errorTypeMatch (goTrim l) with _ | t
      · exact ih
      · rfl

/-- The forward loop of the parser equals the claim-side forward scan. -/
theorem errorLineScan_eq (ls : List String) :
    errorLineScan ls = (ls.findSome? (fun l => (errorLineMatch l).bind goAtoi)).getD 0 := by
  induction ls with
  | nil => rfl
  | cons l rest ih =>
    simp only [errorLineScan, List.findSome?_cons]
    rcases hm : errorLineMatch l with _ | digits
    · simpa [hm] using ih
    · rcases ha : goAtoi digits with _ | n
      · simpa [hm, ha] using ih
      · simp [hm, ha]

/-- **C9** — `parseErrorFromStderr` computes the error type by the
backward scan over trimmed lines (first match of the anchored
`…Error:` pattern from the last line up) and the error line by the
forward scan (first parsed capture of the `File "…", line N` pattern);
the scans are independent (each of the three concrete inputs below makes
a different subset succeed) and the function is total, yielding
`("", 0)` when nothing matches. -/
theorem parse_error_scan_contract (stderr : String) :
    parseErrorFromStderr stderr =
      (specErrorType (strSplit stderr '\n'), specErrorLine (strSplit stderr '\n')) ∧
    parseErrorFromStderr "ValueError: boom" = ("ValueError", 0) ∧
    parseErrorFromStderr "  File \"main.py\", line 7, in f\nsome text" = ("", 7) ∧
    parseErrorFromStderr "no python error here" = ("", 0) := by
  refine ⟨?_, by decide, by decide, by decide⟩
  have h1 : errorTypeScan (strSplit stderr '\n').reverse =
      specErrorType (strSplit stderr '\n') := by
    rw [errorTypeScan_eq, specErrorType]
  have h2 : errorLineScan (strSplit stderr '\n') = specErrorLine (strSplit stderr '\n') := by
    rw [errorLineScan_eq, specErrorLine]
  simp only [parseErrorFromStderr]
  rw [h1, h2]

/-- **C10** — `validatePath` rejects `..` as a plain two-character
substring anywhere in the name: every name containing `..` is rejected,
including `a..b.py` where `..` is not a path segment (so the predicate is
strictly stronger than the segment rule), and extraction of an archive
containing such an entry fails without writing it. -/
theorem validatePath_rejects_any_dotdot_substring (name : String)
    (h : containsSubstr name ".." = true) :
    (validatePath name).isSome = true ∧
    validatePath "a..b.py" = some "invalid path: a..b.py (contains ..)" ∧
    hasDotDotSegment "a..b.py" = false ∧
    (extractToDir [⟨"a..b.py", TarType.reg, "x"⟩] "/work").1 = [] ∧
    (extractToDir [⟨"a..b.py", TarType.reg, "x"⟩] "/work").2.isSome = true := by
  refine ⟨?_, by decide, by decide, by decide, by decide⟩
  rw [validatePath, if_pos h]
  rfl

/-- Witness for C10 at a name where `..` sits inside an ordinary file
name. -/
theorem validatePath_rejects_any_dotdot_substring_witness :
    containsSubstr "notes..txt" ".." = true ∧
    (validatePath "notes..txt").isSome = true :=
  ⟨by decide, (validatePath_rejects_any_dotdot_substring "notes..txt" (by decide)).1⟩

end PyExec
